import Mathlib

/-!
Verification development for the reth-blob-exex repository: a shallow
embedding of the blob-statistics indexer (SQLite-backed aggregate store,
chain-event processor, analytics queries) together with theorems settling
the specification claims.

The SQLite tables (`src/db.rs`) are modelled as association lists keyed by
their primary keys; `INSERT OR REPLACE` becomes an in-place key upsert,
`ON CONFLICT ... DO UPDATE` becomes an additive upsert, plain `INSERT`
on the autoincrement `blob_hashes` table becomes a list append, and
`DELETE ... WHERE` becomes a filter.  The chain processor
(`src/exex.rs::process_chain` / `revert_chain` / `blob_exex`) is embedded
as pure state transformers over that store.  Machine integers are `Nat`
(with the explicit `i64` clamps of the source where it performs
`try_into().unwrap_or(..)`), SQL-returned `i64` timestamps are `Int`
(with `Int.tdiv`/`Int.tmod`, which agree with Rust's truncating `/` and
`%`), and `f64` quantities computed by the analytics are modelled as
exact rationals (`ℚ`), except the Pearson square root which lives in `ℝ`.
-/

namespace BlobExEx

/-- One value of `DATA_GAS_PER_BLOB` (EIP-4844): 0x20000. -/
def DATA_GAS_PER_BLOB : Nat := 131072

/-- Row of the `blocks` table (`src/db.rs::create_tables`): primary key
`block_number` is the association-list key; the remaining columns are the
fields below. -/
structure BlockRow where
  block_timestamp : Nat
  tx_count : Nat
  total_blobs : Nat
  gas_used : Nat
  gas_price : Nat
  excess_blob_gas : Nat
deriving DecidableEq, Repr

/-- Row of the `blob_transactions` table: primary key `tx_hash` is the
association-list key. -/
structure TxRow where
  block_number : Nat
  sender : String
  blob_count : Nat
  gas_price : Nat
  created_at : Nat
deriving DecidableEq, Repr

/-- Row of the `senders` table: primary key `address` is the
association-list key. -/
structure SenderRow where
  tx_count : Nat
  total_blobs : Nat
deriving DecidableEq, Repr

/-- Row of the `blob_hashes` table (autoincrement id dropped; the table is
append-only so list position plays the id's role). -/
structure BlobHashRow where
  tx_hash : String
  blob_hash : String
  blob_index : Nat
deriving DecidableEq, Repr

/-- The SQLite store of `src/db.rs`: the four tables. -/
structure DB where
  blocks : List (Nat × BlockRow)
  blob_transactions : List (String × TxRow)
  senders : List (String × SenderRow)
  blob_hashes : List BlobHashRow
deriving DecidableEq, Repr

/-- The empty store (fresh database after `create_tables`). -/
def DB.empty : DB := ⟨[], [], [], []⟩

/-- Key-based replace-or-insert on an association list: the semantics of
`INSERT OR REPLACE` on a table whose key is the primary key. -/
def upsert {K V : Type} [DecidableEq K] (k : K) (v : V) :
    List (K × V) → List (K × V)
  | [] => [(k, v)]
  | (k', v') :: t => if k = k' then (k, v) :: t else (k', v') :: upsert k v t

/-- Database.insert_block (`src/db.rs`): `INSERT OR REPLACE INTO blocks`. -/
def insert_block (db : DB) (block_number block_timestamp tx_count total_blobs
    gas_used gas_price excess_blob_gas : Nat) : DB :=
  let row : BlockRow :=
    ⟨block_timestamp, tx_count, total_blobs, gas_used, gas_price, excess_blob_gas⟩
  { db with blocks := upsert block_number row db.blocks }

/-- Database.insert_blob_transaction (`src/db.rs`):
`INSERT OR REPLACE INTO blob_transactions`. -/
def insert_blob_transaction (db : DB) (tx_hash : String)
    (block_number : Nat) (sender : String)
    (blob_count gas_price created_at : Nat) : DB :=
  let row : TxRow := ⟨block_number, sender, blob_count, gas_price, created_at⟩
  { db with blob_transactions := upsert tx_hash row db.blob_transactions }

/-- Database.insert_blob_hash (`src/db.rs`): plain `INSERT` into the
append-only `blob_hashes` table. -/
def insert_blob_hash (db : DB) (tx_hash blob_hash : String)
    (blob_index : Nat) : DB :=
  { db with blob_hashes := db.blob_hashes ++ [⟨tx_hash, blob_hash, blob_index⟩] }

/-- Additive upsert on the `senders` table: `INSERT ... ON CONFLICT(address)
DO UPDATE SET tx_count = tx_count + 1, total_blobs = total_blobs + ?`. -/
def sender_upsert (address : String) (num_blobs : Nat) :
    List (String × SenderRow) → List (String × SenderRow)
  | [] => [(address, ⟨1, num_blobs⟩)]
  | (a, r) :: t =>
    if address = a then
      (a, ⟨r.tx_count + 1, r.total_blobs + num_blobs⟩) :: t
    else
      (a, r) :: sender_upsert address num_blobs t

/-- Database.update_sender (`src/db.rs`). -/
def update_sender (db : DB) (sender : String) (num_blobs : Nat) : DB :=
  { db with senders := sender_upsert sender num_blobs db.senders }

/-- Database.delete_block (`src/db.rs`): `DELETE FROM blocks WHERE
block_number = ?`. -/
def delete_block (db : DB) (block_number : Nat) : DB :=
  { db with blocks := db.blocks.filter (fun p => p.1 ≠ block_number) }

/-- Point query by primary key on an association-list table
(`SELECT .. WHERE key = ?`): the key is unique in any table reachable
from an empty store, so first match is the row. -/
def alist_lookup {K V : Type} [DecidableEq K] (k : K) :
    List (K × V) → Option V
  | [] => none
  | (k', v) :: t => if k = k' then some v else alist_lookup k t

/-- Point lookup in the `blocks` table by primary key. -/
def lookup_block (db : DB) (n : Nat) : Option BlockRow :=
  alist_lookup n db.blocks

/-- Point lookup in the `blob_transactions` table by primary key. -/
def lookup_blob_transaction (db : DB) (h : String) : Option TxRow :=
  alist_lookup h db.blob_transactions

/-- Point lookup in the `senders` table by primary key. -/
def lookup_sender (db : DB) (a : String) : Option SenderRow :=
  alist_lookup a db.senders

/-- A transaction as the processor sees it (`src/exex.rs::process_chain`):
its type tag (`tx_type()`), the optional list of blob versioned hashes
(`blob_versioned_hashes()`), the result of signer recovery
(`recover_signer()`, `some` on `Ok`), and its hash rendered to a string. -/
structure Tx where
  tx_type : Nat
  blob_versioned_hashes : Option (List String)
  signer : Option String
  tx_hash : String
deriving DecidableEq, Repr

/-- A sealed block of a chain segment as the processor reads it: header
number, timestamp, the optional blob fee (`header.blob_fee(..)`), the
optional excess blob gas, and the transaction list. -/
structure ChainBlock where
  number : Nat
  timestamp : Nat
  blob_fee : Option Nat
  excess_blob_gas : Option Nat
  txs : List Tx
deriving DecidableEq, Repr

/-- The block's blob gas price as computed in `process_chain`:
`blob_fee(..).unwrap_or(0).try_into().unwrap_or(i64::MAX)` — the `u128`
fee clamped to `i64::MAX` when it does not fit. -/
def blob_gas_price_of (b : ChainBlock) : Nat :=
  let f := b.blob_fee.getD 0
  if f ≤ 2 ^ 63 - 1 then f else 2 ^ 63 - 1

/-- The block's excess blob gas as computed in `process_chain`:
`excess_blob_gas().unwrap_or(0).try_into().unwrap_or(0)` — note the
fallback on an out-of-range value is 0 here, not `i64::MAX`. -/
def excess_blob_gas_of (b : ChainBlock) : Nat :=
  let e := b.excess_blob_gas.getD 0
  if e ≤ 2 ^ 63 - 1 then e else 0

/-- Insert the ordered blob hashes of one transaction: the
`for (idx, blob_hash) in blob_hashes.iter().enumerate()` loop of
`process_chain`. -/
def insert_blob_hashes (db : DB) (tx_hash : String) (hs : List String) : DB :=
  hs.enum.foldl (fun d p => insert_blob_hash d tx_hash p.2 p.1) db

/-- Body of the transaction loop of `process_chain`: threads the per-block
accumulators `(blob_tx_count, total_blobs, blob_gas_used)` and the store.
A type-3 transaction bumps `blob_tx_count`; if it exposes blob hashes the
block totals grow, and only if additionally its signer recovers are the
`blob_transactions`, `blob_hashes` and `senders` tables touched. -/
def process_tx (block_number block_timestamp blob_gas_price : Nat)
    (acc : Nat × Nat × Nat × DB) (t : Tx) : Nat × Nat × Nat × DB :=
  let (blob_tx_count, total_blobs, blob_gas_used, db) := acc
  if t.tx_type = 3 then
    let blob_tx_count := blob_tx_count + 1
    match t.blob_versioned_hashes with
    | some hs =>
      let num_blobs := hs.length
      let total_blobs := total_blobs + num_blobs
      let blob_gas_used := blob_gas_used + num_blobs * DATA_GAS_PER_BLOB
      match t.signer with
      | some s =>
        let db := insert_blob_transaction db t.tx_hash block_number s
          num_blobs blob_gas_price block_timestamp
        let db := insert_blob_hashes db t.tx_hash hs
        let db := update_sender db s num_blobs
        (blob_tx_count, total_blobs, blob_gas_used, db)
      | none => (blob_tx_count, total_blobs, blob_gas_used, db)
    | none => (blob_tx_count, total_blobs, blob_gas_used, db)
  else
    (blob_tx_count, total_blobs, blob_gas_used, db)

/-- Processing of one block of a committed/new segment
(`src/exex.rs::process_chain`, loop body): run the transaction loop, then
upsert the `blocks` row with the final per-block aggregates. -/
def process_block (db : DB) (b : ChainBlock) : DB :=
  let gp := blob_gas_price_of b
  let ebg := excess_blob_gas_of b
  let r := b.txs.foldl (process_tx b.number b.timestamp gp) (0, 0, 0, db)
  insert_block r.2.2.2 b.number b.timestamp r.1 r.2.1 r.2.2.1 gp ebg

/-- src/exex.rs::process_chain: process each block of the segment in
order. -/
def process_chain (db : DB) (chain : List ChainBlock) : DB :=
  chain.foldl process_block db

/-- src/exex.rs::revert_chain: delete the `blocks` row of every block of
the reverted segment. -/
def revert_chain (db : DB) (chain : List ChainBlock) : DB :=
  chain.foldl (fun d b => delete_block d b.number) db

/-- The notification variants consumed by `blob_exex`
(reth's `ExExNotification`), each carrying its ordered segment(s). -/
inductive ExExNotification where
  | chainCommitted (new : List ChainBlock)
  | chainReorged (old new : List ChainBlock)
  | chainReverted (old : List ChainBlock)
deriving DecidableEq, Repr

/-- reth's `ExExNotification::committed_chain()`: the new segment for
`ChainCommitted` and `ChainReorged`, nothing for `ChainReverted`. -/
def committed_chain : ExExNotification → Option (List ChainBlock)
  | .chainCommitted new => some new
  | .chainReorged _ new => some new
  | .chainReverted _ => none

/-- Number of the tip (last) block of a segment; `chain.tip()` of a
nonempty reth chain (0 only as a junk value on the empty list, which a
real `Chain` never is). -/
def chain_tip_number (c : List ChainBlock) : Nat :=
  (c.getLast?.map ChainBlock.number).getD 0

/-- Body of the notification loop of `src/exex.rs::blob_exex`,
parameterised over the (fallible) segment processors so that store
failures can be expressed: run the match on the notification with `?`
propagation, then emit `FinishedHeight(committed_chain.tip())` when the
notification has a committed chain.  The emitted acknowledgment is the
`Option Nat` component of a successful result; an `Except.error` result
means the notification aborted and nothing was emitted. -/
def handle_notification {ε : Type} (pc rc : DB → List ChainBlock → Except ε DB)
    (db : DB) (n : ExExNotification) : Except ε (DB × Option Nat) := do
  let db' ← match n with
    | .chainCommitted new => pc db new
    | .chainReorged old new => do
        let d ← rc db old
        pc d new
    | .chainReverted old => rc db old
  pure (db', (committed_chain n).map chain_tip_number)

/-! ## Analytics (`src/bin/web.rs`, `src/db.rs`) -/

/-- Protocol constant `BLOB_TARGET` of `src/bin/web.rs`. -/
def BLOB_TARGET : Nat := 10

/-- Protocol constant `BLOB_MAX` of `src/bin/web.rs`. -/
def BLOB_MAX : Nat := 15

/-- Utilization of a block as computed by `classify_regime`:
`(total_blobs as f64 / BLOB_TARGET as f64) * 100.0`, modelled exactly
in ℚ. -/
def utilization (total_blobs : Nat) : ℚ :=
  (total_blobs : ℚ) / (BLOB_TARGET : ℚ) * 100

/-- src/bin/web.rs::classify_regime: the utilization band ladder with
inclusive upper bounds 50/90/120/150. -/
def classify_regime (total_blobs : Nat) : String :=
  if utilization total_blobs ≤ 50 then "abundant"
  else if utilization total_blobs ≤ 90 then "normal"
  else if utilization total_blobs ≤ 120 then "pressured"
  else if utilization total_blobs ≤ 150 then "congested"
  else "saturated"

/-- Numerator of the Pearson correlation in
`src/bin/web.rs::calculate_correlation`: `n * sum_xy - sum_x * sum_y`. -/
def corr_numerator (x y : List ℚ) : ℚ :=
  let n : ℚ := x.length
  let sum_x := x.sum
  let sum_y := y.sum
  let sum_xy := ((x.zip y).map (fun p => p.1 * p.2)).sum
  n * sum_xy - sum_x * sum_y

/-- Radicand of the denominator of the Pearson correlation in
`calculate_correlation`:
`(n * sum_x2 - sum_x * sum_x) * (n * sum_y2 - sum_y * sum_y)` — the
product of the two variance terms. -/
def corr_denominator_sq (x y : List ℚ) : ℚ :=
  let n : ℚ := x.length
  let sum_x := x.sum
  let sum_y := y.sum
  let sum_x2 := (x.map (fun a => a * a)).sum
  let sum_y2 := (y.map (fun a => a * a)).sum
  (n * sum_x2 - sum_x * sum_x) * (n * sum_y2 - sum_y * sum_y)

open Classical in
/-- src/bin/web.rs::calculate_correlation: 0 on mismatched lengths or
empty input, otherwise `numerator / sqrt(radicand)`, with 0 when the
computed denominator is zero. -/
noncomputable def calculate_correlation (x y : List ℚ) : ℝ :=
  if x.length ≠ y.length ∨ x.isEmpty then 0
  else
    let numerator : ℝ := (corr_numerator x y : ℚ)
    let denominator : ℝ := Real.sqrt ((corr_denominator_sq x y : ℚ) : ℝ)
    if denominator = 0 then 0 else numerator / denominator

/-- One grouped transaction of a chain profile, as selected by
`get_chain_profiles`: `(blob_count, created_at, gas_price)`. -/
abbrev ProfileTx := Nat × Int × Nat

/-- The `price_sensitivity` computation of
`src/bin/web.rs::get_chain_profiles` for one label group: the Pearson
correlation of (gas price, blob count) pairs when the group holds more
than 10 transactions, and 0 otherwise. -/
noncomputable def price_sensitivity (txs : List ProfileTx) : ℝ :=
  if 10 < txs.length then
    let prices : List ℚ := txs.map (fun t => (t.2.2 : ℚ))
    let blobs : List ℚ := txs.map (fun t => (t.1 : ℚ))
    calculate_correlation prices blobs
  else 0

/-- Chart series returned by `get_chart_data`.  Gas prices are the stored
integer prices divided by 1e9, modelled exactly in ℚ. -/
structure ChartData where
  labels : List Nat
  blobs : List Nat
  gas_prices : List ℚ
deriving DecidableEq, Repr

/-- `SELECT MAX(block_number) FROM blocks` with the `unwrap_or(0)` of
`get_chart_data`: 0 both on an empty table and when the only stored
number is 0. -/
def max_block_number (l : List (Nat × BlockRow)) : Nat :=
  l.foldl (fun acc p => max acc p.1) 0

/-- The inclusive block-number range `start_block..=latest_block`
iterated by `get_chart_data`. -/
def chart_range (start latest : Nat) : List Nat :=
  List.range' start (latest + 1 - start)

/-- The rows of the range query of `get_chart_data` in `ORDER BY
block_number ASC` order: walking the range in ascending order and keeping
the stored blocks reproduces the SQL result set. -/
def chart_rows (db : DB) (ks : List Nat) : List (Nat × BlockRow) :=
  ks.filterMap (fun k => (lookup_block db k).map (fun r => (k, r)))

/-- The pre-scan loop of `get_chart_data` that populates the hash map:
its one lasting side effect on the fill loop is that `last_gas_price`
ends up holding the gas price of the last row iterated (0 when the range
holds no rows). -/
def prescan_last_gas_price (db : DB) (ks : List Nat) : Nat :=
  (chart_rows db ks).foldl (fun _ p => p.2.gas_price) 0

/-- The fill loop of `get_chart_data` over the block-number range,
threading `last_gas_price`: a stored block contributes its own blob count
and gas price (and refreshes `last_gas_price`), a missing block
contributes blob count 0 and the carried `last_gas_price`. -/
def fill_chart (db : DB) : Nat → List Nat → List Nat × List Nat × List ℚ
  | _, [] => ([], [], [])
  | last_gas_price, k :: ks =>
    match lookup_block db k with
    | some r =>
      let rest := fill_chart db r.gas_price ks
      (k :: rest.1, r.total_blobs :: rest.2.1,
        ((r.gas_price : ℚ) / 10 ^ 9) :: rest.2.2)
    | none =>
      let rest := fill_chart db last_gas_price ks
      (k :: rest.1, 0 :: rest.2.1,
        ((last_gas_price : ℚ) / 10 ^ 9) :: rest.2.2)

/-- The window of block numbers `[latest - (num_blocks - 1), latest]`
that `get_chart_data` iterates (`start_block` is
`latest.saturating_sub(num_blocks - 1)`). -/
def chart_window (db : DB) (num_blocks : Nat) : List Nat :=
  chart_range (max_block_number db.blocks - (num_blocks - 1))
    (max_block_number db.blocks)

/-- src/db.rs::get_chart_data (same logic as the handler in
`src/bin/web.rs`): empty series when the maximal stored block number is
0, otherwise the gap-filled window `[latest - (num_blocks - 1), latest]`,
entered with `last_gas_price` left by the pre-scan. -/
def get_chart_data (db : DB) (num_blocks : Nat) : ChartData :=
  if max_block_number db.blocks = 0 then ⟨[], [], []⟩
  else
    ⟨(fill_chart db (prescan_last_gas_price db (chart_window db num_blocks))
        (chart_window db num_blocks)).1,
     (fill_chart db (prescan_last_gas_price db (chart_window db num_blocks))
        (chart_window db num_blocks)).2.1,
     (fill_chart db (prescan_last_gas_price db (chart_window db num_blocks))
        (chart_window db num_blocks)).2.2⟩

/-- Day of week (0 = Sunday) of a Unix timestamp as computed by
`get_congestion_heatmap`: `((timestamp / 86400 + 4) % 7) as u8`, with
Rust's truncating `i64` division and remainder. -/
def day_of_week (ts : Int) : Int :=
  Int.tmod (Int.tdiv ts 86400 + 4) 7

/-- Hour of day of a Unix timestamp as computed by
`get_congestion_heatmap` (and the hourly histogram of
`get_chain_profiles`): `((timestamp % 86400) / 3600) as u8`. -/
def hour_of_day (ts : Int) : Int :=
  Int.tdiv (Int.tmod ts 86400) 3600

/-- One cell of the congestion heatmap. -/
structure HeatmapCell where
  day_of_week : Nat
  hour : Nat
  avg_utilization : ℚ
  avg_saturation : ℚ
  avg_gas_price : ℚ
  block_count : Nat
deriving DecidableEq, Repr

/-- One `blocks` row as read by the heatmap query:
`(block_timestamp, total_blobs, gas_price)`, the timestamp as `i64`. -/
abbrev HeatmapRow := Int × Nat × Nat

/-- The cell emitted for a `(day, hour)` pair by
`get_congestion_heatmap`: aggregates over the rows bucketed there, or the
zero-filled cell when no row falls in the bucket. -/
def heatmap_cell (day hour : Nat) (rows : List HeatmapRow) : HeatmapCell :=
  let group := rows.filter
    (fun r => day_of_week r.1 = (day : Int) ∧ hour_of_day r.1 = (hour : Int))
  if group.isEmpty then
    ⟨day, hour, 0, 0, 0, 0⟩
  else
    let block_count := group.length
    let total_blobs := (group.map (fun r => r.2.1)).sum
    let total_gas := (group.map (fun r => r.2.2)).sum
    let avg_blobs : ℚ := (total_blobs : ℚ) / (block_count : ℚ)
    let avg_utilization := avg_blobs / (BLOB_TARGET : ℚ) * 100
    let avg_saturation := avg_blobs / (BLOB_MAX : ℚ) * 100
    let avg_gas_price : ℚ := (total_gas : ℚ) / (block_count : ℚ)
    ⟨day, hour, avg_utilization, avg_saturation, avg_gas_price, block_count⟩

/-- The time-filtered row set of the heatmap query:
`WHERE block_timestamp >= now - days * 86400`. -/
def heatmap_rows (blocks : List HeatmapRow) (now : Int) (days : Nat) :
    List HeatmapRow :=
  blocks.filter (fun r => now - (days : Int) * 86400 ≤ r.1)

/-- src/bin/web.rs::get_congestion_heatmap: bucket the blocks of the
requested trailing day range by (day of week, hour) and emit the full
7 × 24 cell grid in day-major order. -/
def get_congestion_heatmap (blocks : List HeatmapRow) (now : Int)
    (days : Nat) : List HeatmapCell :=
  let rows := heatmap_rows blocks now days
  (List.range 7).flatMap
    (fun day => (List.range 24).map (fun hour => heatmap_cell day hour rows))

/-! ## Pure write-set characterisation of the processor -/

/-- The `blob_transactions` row written for a transaction of a block with
the given header data, when one is written at all: requires type 3,
exposed blob hashes and a recovered signer. -/
def tx_write_of (block_number block_timestamp blob_gas_price : Nat)
    (t : Tx) : Option (String × TxRow) :=
  if t.tx_type = 3 then
    match t.blob_versioned_hashes, t.signer with
    | some hs, some s =>
      some (t.tx_hash,
        ⟨block_number, s, hs.length, blob_gas_price, block_timestamp⟩)
    | _, _ => none
  else none

/-- All `blob_transactions` rows written while processing a block, in
transaction order. -/
def tx_writes_of (b : ChainBlock) : List (String × TxRow) :=
  b.txs.filterMap (tx_write_of b.number b.timestamp (blob_gas_price_of b))

/-- The `blob_hashes` rows appended for one transaction (empty unless it
is type 3 with exposed hashes and a recovered signer). -/
def hash_writes_of_tx (t : Tx) : List BlobHashRow :=
  if t.tx_type = 3 then
    match t.blob_versioned_hashes, t.signer with
    | some hs, some _ => hs.enum.map (fun p => ⟨t.tx_hash, p.2, p.1⟩)
    | _, _ => []
  else []

/-- All `blob_hashes` rows appended while processing a block. -/
def hash_writes_of (b : ChainBlock) : List BlobHashRow :=
  b.txs.flatMap hash_writes_of_tx

/-- The `senders` increment issued for one transaction, when one is
issued at all. -/
def sender_write_of (t : Tx) : Option (String × Nat) :=
  if t.tx_type = 3 then
    match t.blob_versioned_hashes, t.signer with
    | some hs, some s => some (s, hs.length)
    | _, _ => none
  else none

/-- All `senders` increments issued while processing a block, in
transaction order. -/
def sender_writes_of (b : ChainBlock) : List (String × Nat) :=
  b.txs.filterMap sender_write_of

/-- Apply a sequence of key upserts in order. -/
def apply_upserts {K V : Type} [DecidableEq K] (ws : List (K × V))
    (l : List (K × V)) : List (K × V) :=
  ws.foldl (fun acc w => upsert w.1 w.2 acc) l

/-- Apply a sequence of additive sender increments in order. -/
def apply_sender_writes (ws : List (String × Nat))
    (l : List (String × SenderRow)) : List (String × SenderRow) :=
  ws.foldl (fun acc w => sender_upsert w.1 w.2 acc) l

/-- `blob_tx_count` contribution of one transaction: every type-3
transaction counts, whatever its hashes or signer. -/
def tx_count_of_tx (t : Tx) : Nat :=
  if t.tx_type = 3 then 1 else 0

/-- Final `blob_tx_count` of a transaction list. -/
def tx_count_of (txs : List Tx) : Nat :=
  (txs.map tx_count_of_tx).sum

/-- `total_blobs` contribution of one transaction: the number of exposed
blob hashes of a type-3 transaction, whatever its signer. -/
def blobs_of_tx (t : Tx) : Nat :=
  if t.tx_type = 3 then (t.blob_versioned_hashes.getD []).length else 0

/-- Final `total_blobs` of a transaction list. -/
def total_blobs_of (txs : List Tx) : Nat :=
  (txs.map blobs_of_tx).sum

/-- The `blocks` row that processing a block upserts. -/
def block_row_of (b : ChainBlock) : BlockRow :=
  ⟨b.timestamp, tx_count_of b.txs, total_blobs_of b.txs,
    total_blobs_of b.txs * DATA_GAS_PER_BLOB,
    blob_gas_price_of b, excess_blob_gas_of b⟩

/-- The `blocks` rows upserted while processing a chain segment. -/
def block_writes_of (chain : List ChainBlock) : List (Nat × BlockRow) :=
  chain.map (fun b => (b.number, block_row_of b))

lemma insert_blob_hashes_eq (tx_hash : String) :
    ∀ (l : List (Nat × String)) (db : DB),
      l.foldl (fun d p => insert_blob_hash d tx_hash p.2 p.1) db =
        { db with blob_hashes :=
            db.blob_hashes ++ l.map (fun p => ⟨tx_hash, p.2, p.1⟩) } := by
  intro l
  induction l with
  | nil => intro db; simp [insert_blob_hash]
  | cons p t ih =>
    intro db
    rw [List.foldl_cons, ih]
    simp [insert_blob_hash, List.append_assoc]

lemma process_tx_loop (bn ts gp : Nat) :
    ∀ (txs : List Tx) (c tb gu : Nat) (db : DB),
      txs.foldl (process_tx bn ts gp) (c, tb, gu, db) =
        (c + tx_count_of txs,
         tb + total_blobs_of txs,
         gu + total_blobs_of txs * DATA_GAS_PER_BLOB,
         { db with
           blob_transactions :=
             apply_upserts (txs.filterMap (tx_write_of bn ts gp))
               db.blob_transactions,
           blob_hashes := db.blob_hashes ++ txs.flatMap hash_writes_of_tx,
           senders :=
             apply_sender_writes (txs.filterMap sender_write_of)
               db.senders }) := by
  intro txs
  induction txs with
  | nil =>
    intro c tb gu db
    simp [tx_count_of, total_blobs_of, apply_upserts, apply_sender_writes]
  | cons t rest ih =>
    intro c tb gu db
    have hcount : tx_count_of (t :: rest) = tx_count_of_tx t + tx_count_of rest := by
      simp [tx_count_of]
    have hblobs : total_blobs_of (t :: rest) = blobs_of_tx t + total_blobs_of rest := by
      simp [total_blobs_of]
    simp only [List.foldl_cons, List.filterMap_cons, List.flatMap_cons]
    by_cases h3 : t.tx_type = 3
    · cases hbv : t.blob_versioned_hashes with
      | none =>
        simp only [process_tx, h3, if_pos, hbv]
        rw [ih]
        simp [tx_write_of, hash_writes_of_tx, sender_write_of, h3, hbv,
          hcount, hblobs, tx_count_of_tx, blobs_of_tx]
        omega
      | some hs =>
        cases hsig : t.signer with
        | none =>
          simp only [process_tx, h3, if_pos, hbv, hsig]
          rw [ih]
          simp [tx_write_of, hash_writes_of_tx, sender_write_of, h3, hbv, hsig,
            hcount, hblobs, tx_count_of_tx, blobs_of_tx]
          constructor
          · omega
          constructor
          · omega
          ring
        | some s =>
          simp only [process_tx, h3, if_pos, hbv, hsig]
          rw [ih]
          simp only [insert_blob_transaction, insert_blob_hashes,
            insert_blob_hashes_eq, update_sender]
          simp [tx_write_of, hash_writes_of_tx, sender_write_of, h3, hbv, hsig,
            hcount, hblobs, tx_count_of_tx, blobs_of_tx, apply_upserts,
            apply_sender_writes, List.append_assoc]
          constructor
          · omega
          constructor
          · omega
          ring
    · simp only [process_tx, h3, if_neg, ite_false]
      rw [ih]
      simp [tx_write_of, hash_writes_of_tx, sender_write_of, h3,
        hcount, hblobs, tx_count_of_tx, blobs_of_tx]

/-- Processing one block decomposes into independent per-table write
sets: an upsert of the aggregate `blocks` row, upserts of the
`blob_transactions` rows of the recoverable blob transactions, appends of
their `blob_hashes` rows, and additive `senders` increments. -/
lemma process_block_eq (db : DB) (b : ChainBlock) :
    process_block db b =
      { blocks := upsert b.number (block_row_of b) db.blocks,
        blob_transactions :=
          apply_upserts (tx_writes_of b) db.blob_transactions,
        senders := apply_sender_writes (sender_writes_of b) db.senders,
        blob_hashes := db.blob_hashes ++ hash_writes_of b } := by
  simp only [process_block, process_tx_loop, insert_block, block_row_of,
    tx_writes_of, sender_writes_of, hash_writes_of, Nat.zero_add]

lemma apply_upserts_append {K V : Type} [DecidableEq K]
    (w₁ w₂ : List (K × V)) (l : List (K × V)) :
    apply_upserts (w₁ ++ w₂) l = apply_upserts w₂ (apply_upserts w₁ l) := by
  simp [apply_upserts, List.foldl_append]

lemma apply_sender_writes_append (w₁ w₂ : List (String × Nat))
    (l : List (String × SenderRow)) :
    apply_sender_writes (w₁ ++ w₂) l =
      apply_sender_writes w₂ (apply_sender_writes w₁ l) := by
  simp [apply_sender_writes, List.foldl_append]

/-- Processing a chain segment decomposes into independent per-table
write sequences accumulated over its blocks. -/
lemma process_chain_eq : ∀ (chain : List ChainBlock) (db : DB),
    process_chain db chain =
      { blocks := apply_upserts (block_writes_of chain) db.blocks,
        blob_transactions :=
          apply_upserts (chain.flatMap tx_writes_of) db.blob_transactions,
        senders :=
          apply_sender_writes (chain.flatMap sender_writes_of) db.senders,
        blob_hashes := db.blob_hashes ++ chain.flatMap hash_writes_of } := by
  intro chain
  induction chain with
  | nil =>
    intro db
    simp [process_chain, block_writes_of, apply_upserts, apply_sender_writes]
  | cons b rest ih =>
    intro db
    have : process_chain db (b :: rest) = process_chain (process_block db b) rest := by
      simp [process_chain]
    rw [this, ih, process_block_eq]
    simp [block_writes_of, apply_upserts, apply_sender_writes,
      List.append_assoc]

/-! ## Association-list upsert and lookup algebra -/

lemma lookup_upsert_self {K V : Type} [DecidableEq K] (k : K) (v : V) :
    ∀ l : List (K × V), alist_lookup k (upsert k v l) = some v := by
  intro l
  induction l with
  | nil => simp [upsert, alist_lookup]
  | cons p t ih =>
    by_cases h : k = p.1
    · simp [upsert, h, alist_lookup]
    · simp [upsert, h, alist_lookup, ih]

lemma lookup_upsert_ne {K V : Type} [DecidableEq K] {k k' : K} (v : V)
    (h : k' ≠ k) :
    ∀ l : List (K × V), alist_lookup k' (upsert k v l) = alist_lookup k' l := by
  intro l
  induction l with
  | nil => simp [upsert, alist_lookup, h]
  | cons p t ih =>
    by_cases h1 : k = p.1
    · subst h1
      simp [upsert, alist_lookup, h]
    · simp only [upsert, if_neg h1]
      by_cases h2 : k' = p.1
      · simp [alist_lookup, h2]
      · simp [alist_lookup, h2, ih]

/-- Upserting the value a key already holds changes nothing. -/
lemma upsert_eq_self_of_lookup {K V : Type} [DecidableEq K] {k : K} {v : V} :
    ∀ l : List (K × V), alist_lookup k l = some v → upsert k v l = l := by
  intro l
  induction l with
  | nil => intro h; simp [alist_lookup] at h
  | cons p t ih =>
    intro h
    by_cases h1 : k = p.1
    · simp only [alist_lookup, if_pos h1, Option.some.injEq] at h
      simp [upsert, h1, ← h]
    · simp only [alist_lookup, if_neg h1] at h
      simp [upsert, h1, ih h]

lemma lookup_apply_upserts_ne {K V : Type} [DecidableEq K] {k : K} :
    ∀ (ws : List (K × V)) (l : List (K × V)), k ∉ ws.map Prod.fst →
    alist_lookup k (apply_upserts ws l) = alist_lookup k l := by
  intro ws
  induction ws with
  | nil => intro l _; rfl
  | cons w t ih =>
    intro l hk
    simp only [List.map_cons, List.mem_cons] at hk
    push_neg at hk
    calc alist_lookup k (apply_upserts (w :: t) l)
        = alist_lookup k (apply_upserts t (upsert w.1 w.2 l)) := rfl
      _ = alist_lookup k (upsert w.1 w.2 l) := ih _ hk.2
      _ = alist_lookup k l := lookup_upsert_ne _ hk.1 _

/-- Replaying a write sequence with pairwise-distinct keys is the
identity on its own result. -/
lemma apply_upserts_idem {K V : Type} [DecidableEq K] :
    ∀ (ws : List (K × V)) (l : List (K × V)),
    (ws.map Prod.fst).Nodup →
    apply_upserts ws (apply_upserts ws l) = apply_upserts ws l := by
  intro ws
  induction ws with
  | nil => intro l _; rfl
  | cons w t ih =>
    intro l hnd
    simp only [List.map_cons, List.nodup_cons] at hnd
    have hfix : upsert w.1 w.2 (apply_upserts t (upsert w.1 w.2 l)) =
        apply_upserts t (upsert w.1 w.2 l) := by
      apply upsert_eq_self_of_lookup
      rw [lookup_apply_upserts_ne t _ hnd.1]
      exact lookup_upsert_self _ _ _
    calc apply_upserts (w :: t) (apply_upserts (w :: t) l)
        = apply_upserts t (upsert w.1 w.2 (apply_upserts t (upsert w.1 w.2 l))) := rfl
      _ = apply_upserts t (apply_upserts t (upsert w.1 w.2 l)) := by rw [hfix]
      _ = apply_upserts t (upsert w.1 w.2 l) := ih _ hnd.2
      _ = apply_upserts (w :: t) l := rfl

lemma apply_upserts_cons_keep {K V : Type} [DecidableEq K]
    {k : K} (v : V) : ∀ (ws : List (K × V)) (l : List (K × V)),
    k ∉ ws.map Prod.fst →
    apply_upserts ws ((k, v) :: l) = (k, v) :: apply_upserts ws l := by
  intro ws
  induction ws with
  | nil => intro l _; rfl
  | cons w t ih =>
    intro l hk
    simp only [List.map_cons, List.mem_cons] at hk
    push_neg at hk
    have hne : w.1 ≠ k := fun h => hk.1 h.symm
    calc apply_upserts (w :: t) ((k, v) :: l)
        = apply_upserts t (upsert w.1 w.2 ((k, v) :: l)) := rfl
      _ = apply_upserts t ((k, v) :: upsert w.1 w.2 l) := by
          simp [upsert, hne]
      _ = (k, v) :: apply_upserts t (upsert w.1 w.2 l) := ih _ hk.2
      _ = (k, v) :: apply_upserts (w :: t) l := rfl

/-- Applying a write sequence with pairwise-distinct keys to the empty
table materialises exactly that sequence. -/
lemma apply_upserts_nil_eq {K V : Type} [DecidableEq K] :
    ∀ ws : List (K × V), (ws.map Prod.fst).Nodup →
    apply_upserts ws ([] : List (K × V)) = ws := by
  intro ws
  induction ws with
  | nil => intro _; rfl
  | cons w t ih =>
    intro hnd
    simp only [List.map_cons, List.nodup_cons] at hnd
    calc apply_upserts (w :: t) []
        = apply_upserts t [(w.1, w.2)] := rfl
      _ = (w.1, w.2) :: apply_upserts t [] := apply_upserts_cons_keep _ _ _ hnd.1
      _ = w :: t := by rw [ih hnd.2]

lemma lookup_erase_self {K V : Type} [DecidableEq K] (n : K) :
    ∀ l : List (K × V),
    alist_lookup n (l.filter (fun p => p.1 ≠ n)) = none := by
  intro l
  induction l with
  | nil => simp [alist_lookup]
  | cons p t ih =>
    simp only [decide_not] at ih
    by_cases h : p.1 = n
    · simp [List.filter_cons, h, decide_not, ih]
    · simp [List.filter_cons, h, alist_lookup, Ne.symm h, decide_not, ih]

lemma lookup_erase_ne {K V : Type} [DecidableEq K] {m n : K} (h : m ≠ n) :
    ∀ l : List (K × V),
    alist_lookup m (l.filter (fun p => p.1 ≠ n)) = alist_lookup m l := by
  intro l
  induction l with
  | nil => simp
  | cons p t ih =>
    simp only [decide_not] at ih
    by_cases h1 : p.1 = n
    · have hm : ¬(m = p.1) := by rw [h1]; exact h
      simp [List.filter_cons, h1, ih, alist_lookup, hm, h, decide_not]
    · by_cases h2 : m = p.1
      · simp [List.filter_cons, h1, alist_lookup, h2, decide_not]
      · simp [List.filter_cons, h1, alist_lookup, h2, decide_not, ih]

/-! ## C7 — delete_block frame -/

/-- C7: for every block number, `delete_block` removes exactly the
`blocks` row with that number (the lookup of that number becomes `none`,
every other number's lookup is untouched) and leaves the `senders`,
`blob_transactions` and `blob_hashes` tables unchanged — no cascade. -/
theorem c7_delete_block_frame (db : DB) (n : Nat) :
    lookup_block (delete_block db n) n = none ∧
    (∀ m, m ≠ n → lookup_block (delete_block db n) m = lookup_block db m) ∧
    (delete_block db n).senders = db.senders ∧
    (delete_block db n).blob_transactions = db.blob_transactions ∧
    (delete_block db n).blob_hashes = db.blob_hashes := by
  refine ⟨?_, ?_, rfl, rfl, rfl⟩
  · exact lookup_erase_self n db.blocks
  · intro m hm
    exact lookup_erase_ne hm db.blocks

/-- Witness for C7 at a concrete store holding blocks 4 and 5: deleting
block 5 empties its lookup, keeps block 4, and leaves the other tables
alone. -/
theorem c7_delete_block_frame_witness :
    lookup_block (delete_block ⟨[(4, ⟨40, 1, 2, 3, 4, 5⟩), (5, ⟨50, 1, 2, 3, 4, 5⟩)],
      [("t", ⟨5, "s", 1, 2, 3⟩)], [("s", ⟨1, 1⟩)], [⟨"t", "b", 0⟩]⟩ 5) 5 = none ∧
    lookup_block (delete_block ⟨[(4, ⟨40, 1, 2, 3, 4, 5⟩), (5, ⟨50, 1, 2, 3, 4, 5⟩)],
      [("t", ⟨5, "s", 1, 2, 3⟩)], [("s", ⟨1, 1⟩)], [⟨"t", "b", 0⟩]⟩ 5) 4 =
      lookup_block ⟨[(4, ⟨40, 1, 2, 3, 4, 5⟩), (5, ⟨50, 1, 2, 3, 4, 5⟩)],
        [("t", ⟨5, "s", 1, 2, 3⟩)], [("s", ⟨1, 1⟩)], [⟨"t", "b", 0⟩]⟩ 4 ∧
    (delete_block ⟨[(4, ⟨40, 1, 2, 3, 4, 5⟩), (5, ⟨50, 1, 2, 3, 4, 5⟩)],
      [("t", ⟨5, "s", 1, 2, 3⟩)], [("s", ⟨1, 1⟩)], [⟨"t", "b", 0⟩]⟩ 5).blob_transactions =
      [("t", ⟨5, "s", 1, 2, 3⟩)] := by
  refine ⟨(c7_delete_block_frame _ 5).1, ((c7_delete_block_frame _ 5).2.1 4 (by decide)), ?_⟩
  rw [(c7_delete_block_frame _ 5).2.2.2.1]

/-! ## C6 — idempotent replay of a committed segment -/

lemma block_writes_keys (chain : List ChainBlock) :
    (block_writes_of chain).map Prod.fst = chain.map ChainBlock.number := by
  simp [block_writes_of]

/-- C6: replaying the same committed segment twice (block numbers and
blob-transaction hashes of a real segment being distinct) leaves the
`blocks` and `blob_transactions` tables exactly as one delivery leaves
them: every write of the second pass overwrites a row with the value it
already holds. -/
theorem c6_idempotent_replay (db : DB) (seg : List ChainBlock)
    (hb : (seg.map ChainBlock.number).Nodup)
    (ht : ((seg.flatMap tx_writes_of).map Prod.fst).Nodup) :
    (process_chain (process_chain db seg) seg).blocks =
      (process_chain db seg).blocks ∧
    (process_chain (process_chain db seg) seg).blob_transactions =
      (process_chain db seg).blob_transactions := by
  simp only [process_chain_eq]
  constructor
  · apply apply_upserts_idem
    rw [block_writes_keys]
    exact hb
  · exact apply_upserts_idem _ _ ht

/-- Witness for C6: a concrete one-block segment with one recoverable
blob transaction, replayed twice from the empty store. -/
theorem c6_idempotent_replay_witness :
    (process_chain (process_chain DB.empty
        [⟨100, 1700000000, some 5, some 0,
          [⟨3, some ["h1", "h2", "h3"], some "0xabc", "t1"⟩]⟩])
      [⟨100, 1700000000, some 5, some 0,
        [⟨3, some ["h1", "h2", "h3"], some "0xabc", "t1"⟩]⟩]).blocks =
    (process_chain DB.empty
      [⟨100, 1700000000, some 5, some 0,
        [⟨3, some ["h1", "h2", "h3"], some "0xabc", "t1"⟩]⟩]).blocks ∧
    (process_chain (process_chain DB.empty
        [⟨100, 1700000000, some 5, some 0,
          [⟨3, some ["h1", "h2", "h3"], some "0xabc", "t1"⟩]⟩])
      [⟨100, 1700000000, some 5, some 0,
        [⟨3, some ["h1", "h2", "h3"], some "0xabc", "t1"⟩]⟩]).blob_transactions =
    (process_chain DB.empty
      [⟨100, 1700000000, some 5, some 0,
        [⟨3, some ["h1", "h2", "h3"], some "0xabc", "t1"⟩]⟩]).blob_transactions :=
  c6_idempotent_replay DB.empty
    [⟨100, 1700000000, some 5, some 0,
      [⟨3, some ["h1", "h2", "h3"], some "0xabc", "t1"⟩]⟩]
    (by decide) (by decide)

/-! ## C10 — chart series on a store whose maximal block number is 0 -/

/-- C10: whenever `MAX(block_number)` evaluates to 0 — both on an empty
`blocks` table and on a table whose only block has number 0 —
`get_chart_data` short-circuits to empty labels/blobs/gas-price vectors,
so a store holding only block number 0 is indistinguishable from an
empty store at this interface. -/
theorem c10_chart_empty_on_zero_latest :
    (∀ (db : DB) (num_blocks : Nat), max_block_number db.blocks = 0 →
      get_chart_data db num_blocks = ⟨[], [], []⟩) ∧
    (∀ (r : BlockRow) (num_blocks : Nat),
      max_block_number [(0, r)] = 0 ∧
      get_chart_data ⟨[(0, r)], [], [], []⟩ num_blocks =
        get_chart_data DB.empty num_blocks) := by
  have h1 : ∀ (db : DB) (num_blocks : Nat), max_block_number db.blocks = 0 →
      get_chart_data db num_blocks = ⟨[], [], []⟩ := by
    intro db num_blocks h
    simp [get_chart_data, h]
  refine ⟨h1, ?_⟩
  intro r num_blocks
  have hz : max_block_number [(0, r)] = 0 := rfl
  refine ⟨hz, ?_⟩
  rw [h1 ⟨[(0, r)], [], [], []⟩ num_blocks hz, h1 DB.empty num_blocks rfl]

/-- Witness for C10 at a concrete one-row store holding only block 0. -/
theorem c10_chart_empty_on_zero_latest_witness :
    get_chart_data ⟨[(0, ⟨7, 1, 2, 3, 9, 0⟩)], [], [], []⟩ 100 = ⟨[], [], []⟩ ∧
    get_chart_data ⟨[(0, ⟨7, 1, 2, 3, 9, 0⟩)], [], [], []⟩ 100 =
      get_chart_data DB.empty 100 :=
  ⟨c10_chart_empty_on_zero_latest.1 ⟨[(0, ⟨7, 1, 2, 3, 9, 0⟩)], [], [], []⟩ 100 (by decide),
   (c10_chart_empty_on_zero_latest.2 ⟨7, 1, 2, 3, 9, 0⟩ 100).2⟩

/-! ## C4 — regime classification bands -/

lemma utilization_eq (n : Nat) : utilization n = 10 * n := by
  unfold utilization BLOB_TARGET
  push_cast
  ring

/-- C4: `classify_regime` computes utilization as
`totalBlobs / BLOB_TARGET * 100` and maps it through inclusive upper
bounds — ≤ 50 abundant, ≤ 90 normal, ≤ 120 pressured, ≤ 150 congested,
above that saturated; with `BLOB_TARGET = 10` the boundary inputs
5, 9, 10, 12, 13, 16 land in abundant, normal, pressured, pressured,
congested, saturated respectively. -/
theorem c4_classify_regime :
    (∀ n : Nat,
      (classify_regime n = "abundant" ↔ utilization n ≤ 50) ∧
      (classify_regime n = "normal" ↔ 50 < utilization n ∧ utilization n ≤ 90) ∧
      (classify_regime n = "pressured" ↔ 90 < utilization n ∧ utilization n ≤ 120) ∧
      (classify_regime n = "congested" ↔ 120 < utilization n ∧ utilization n ≤ 150) ∧
      (classify_regime n = "saturated" ↔ 150 < utilization n)) ∧
    classify_regime 5 = "abundant" ∧
    classify_regime 9 = "normal" ∧
    classify_regime 10 = "pressured" ∧
    classify_regime 12 = "pressured" ∧
    classify_regime 13 = "congested" ∧
    classify_regime 16 = "saturated" := by
  constructor
  · intro n
    unfold classify_regime
    split_ifs with h1 h2 h3 h4
    all_goals try push_neg at h1
    all_goals try push_neg at h2
    all_goals try push_neg at h3
    all_goals try push_neg at h4
    all_goals refine ⟨?_, ?_, ?_, ?_, ?_⟩
    all_goals first
      | exact iff_of_true rfl (by linarith)
      | exact iff_of_true rfl ⟨by linarith, by linarith⟩
      | exact iff_of_false (by decide) (by intro hp; linarith)
  refine ⟨?_, ?_, ?_, ?_, ?_, ?_⟩ <;>
    norm_num [classify_regime, utilization_eq]

/-! ## C1 — unrecoverable signers: persistence vs block totals -/

/-- The same block with signer recovery failing on every transaction. -/
def strip_signers (b : ChainBlock) : ChainBlock :=
  { b with txs := b.txs.map (fun t => { t with signer := none }) }

lemma tx_write_of_strip (bn ts gp : Nat) (t : Tx) :
    tx_write_of bn ts gp { t with signer := none } = none := by
  unfold tx_write_of
  split_ifs
  · cases t.blob_versioned_hashes <;> rfl
  · rfl

lemma hash_writes_of_tx_strip (t : Tx) :
    hash_writes_of_tx { t with signer := none } = [] := by
  unfold hash_writes_of_tx
  split_ifs
  · cases t.blob_versioned_hashes <;> rfl
  · rfl

lemma sender_write_of_strip (t : Tx) :
    sender_write_of { t with signer := none } = none := by
  unfold sender_write_of
  split_ifs
  · cases t.blob_versioned_hashes <;> rfl
  · rfl

lemma block_row_of_strip (b : ChainBlock) :
    block_row_of (strip_signers b) = block_row_of b := by
  have h1 : ∀ t : Tx, tx_count_of_tx { t with signer := none } = tx_count_of_tx t :=
    fun t => rfl
  have h2 : ∀ t : Tx, blobs_of_tx { t with signer := none } = blobs_of_tx t :=
    fun t => rfl
  unfold block_row_of strip_signers tx_count_of total_blobs_of
    blob_gas_price_of excess_blob_gas_of
  simp [List.map_map, Function.comp_def, h1, h2]

/-- C1 (amended): a blob-carrying transaction whose signer cannot be
recovered is excluded from persistence — with every signer unrecoverable
the `blob_transactions`, `blob_hashes` and `senders` tables are left
exactly as they were — but it is NOT excluded from the block's aggregate
totals: the persisted `blocks` row (tx_count, total_blobs, gas_used) is
identical to the one written when every signer recovers, because
`process_chain` accumulates the totals before attempting signer
recovery. -/
theorem c1_unrecoverable_signer_amended (db : DB) (b : ChainBlock) :
    (process_block db (strip_signers b)).blocks = (process_block db b).blocks ∧
    (process_block db (strip_signers b)).blob_transactions =
      db.blob_transactions ∧
    (process_block db (strip_signers b)).senders = db.senders ∧
    (process_block db (strip_signers b)).blob_hashes = db.blob_hashes := by
  rw [process_block_eq, process_block_eq]
  have htx : tx_writes_of (strip_signers b) = [] := by
    unfold tx_writes_of strip_signers
    rw [List.filterMap_map]
    rw [List.filterMap_eq_nil_iff]
    intro t _
    exact tx_write_of_strip _ _ _ t
  have hhash : hash_writes_of (strip_signers b) = [] := by
    unfold hash_writes_of strip_signers
    rw [List.flatMap_map]
    rw [List.flatMap_eq_nil_iff]
    intro t _
    exact hash_writes_of_tx_strip t
  have hsend : sender_writes_of (strip_signers b) = [] := by
    unfold sender_writes_of strip_signers
    rw [List.filterMap_map]
    rw [List.filterMap_eq_nil_iff]
    intro t _
    exact sender_write_of_strip t
  refine ⟨?_, ?_, ?_, ?_⟩
  · rw [block_row_of_strip]
    simp [strip_signers]
  · simp [htx, apply_upserts]
  · simp [hsend, apply_sender_writes]
  · simp [hhash]

/-- Counterexample for C1 as stated: in the one-block segment below the
only transaction is blob-carrying (type 3, one blob hash) with an
unrecoverable signer.  It is excluded from persistence (all three detail
tables stay empty), yet the persisted `blocks` row counts it —
tx_count 1, total_blobs 1, blob gas 131072 — where the claim demands the
totals exclude it (tx_count 0, total_blobs 0, gas_used 0). -/
theorem c1_counterexample :
    (process_chain DB.empty
      [⟨100, 1700000000, some 1, some 0,
        [⟨3, some ["b1"], none, "t1"⟩]⟩]).blob_transactions = [] ∧
    (process_chain DB.empty
      [⟨100, 1700000000, some 1, some 0,
        [⟨3, some ["b1"], none, "t1"⟩]⟩]).senders = [] ∧
    (process_chain DB.empty
      [⟨100, 1700000000, some 1, some 0,
        [⟨3, some ["b1"], none, "t1"⟩]⟩]).blob_hashes = [] ∧
    lookup_block (process_chain DB.empty
      [⟨100, 1700000000, some 1, some 0,
        [⟨3, some ["b1"], none, "t1"⟩]⟩]) 100 =
      some ⟨1700000000, 1, 1, 131072, 1, 0⟩ ∧
    ¬ (lookup_block (process_chain DB.empty
        [⟨100, 1700000000, some 1, some 0,
          [⟨3, some ["b1"], none, "t1"⟩]⟩]) 100 =
        some ⟨1700000000, 0, 0, 0, 1, 0⟩) := by
  decide

/-! ## C2 — aggregate consistency of `total_blobs` -/

/-- Sum of `blob_count` over all `blob_transactions` rows whose
`block_number` equals the given number
(`SELECT SUM(blob_count) .. WHERE block_number = ?`). -/
def sum_blob_counts (rows : List (String × TxRow)) (n : Nat) : Nat :=
  ((rows.filter (fun r => r.2.block_number = n)).map
    (fun r => r.2.blob_count)).sum

lemma alist_lookup_block_writes :
    ∀ (seg : List ChainBlock) (b : ChainBlock),
    (seg.map ChainBlock.number).Nodup → b ∈ seg →
    alist_lookup b.number (block_writes_of seg) = some (block_row_of b) := by
  intro seg
  induction seg with
  | nil => intro b _ hmem; exact absurd hmem (List.not_mem_nil b)
  | cons b' rest ih =>
    intro b hnd hmem
    simp only [List.map_cons, List.nodup_cons] at hnd
    rcases List.mem_cons.mp hmem with hb | hb
    · subst hb
      simp [block_writes_of, alist_lookup]
    · have hne : b.number ≠ b'.number := by
        intro he
        exact hnd.1 (he ▸ List.mem_map_of_mem ChainBlock.number hb)
      simp only [block_writes_of, List.map_cons, alist_lookup, if_neg hne]
      exact ih b hnd.2 hb

lemma tx_writes_block_number {b : ChainBlock} {r : String × TxRow}
    (h : r ∈ tx_writes_of b) : r.2.block_number = b.number := by
  unfold tx_writes_of at h
  rcases List.mem_filterMap.mp h with ⟨t, -, hw⟩
  unfold tx_write_of at hw
  split_ifs at hw
  · rcases hbv : t.blob_versioned_hashes with - | hs <;> rw [hbv] at hw
    · simp at hw
    · rcases hsg : t.signer with - | s <;> rw [hsg] at hw
      · simp at hw
      · simp only [Option.some.injEq] at hw
        rw [← hw]

lemma filter_tx_writes_self (b : ChainBlock) :
    (tx_writes_of b).filter (fun r => r.2.block_number = b.number) =
      tx_writes_of b := by
  rw [List.filter_eq_self]
  intro r hr
  simp [tx_writes_block_number hr]

lemma filter_tx_writes_ne {b : ChainBlock} {m : Nat} (h : b.number ≠ m) :
    (tx_writes_of b).filter (fun r => r.2.block_number = m) = [] := by
  rw [List.filter_eq_nil_iff]
  intro r hr
  simp [tx_writes_block_number hr, h]

lemma filter_flatMap_tx_writes :
    ∀ (seg : List ChainBlock) (b : ChainBlock),
    (seg.map ChainBlock.number).Nodup → b ∈ seg →
    (seg.flatMap tx_writes_of).filter (fun r => r.2.block_number = b.number) =
      tx_writes_of b := by
  intro seg
  induction seg with
  | nil => intro b _ hmem; exact absurd hmem (List.not_mem_nil b)
  | cons b' rest ih =>
    intro b hnd hmem
    simp only [List.map_cons, List.nodup_cons] at hnd
    rw [List.flatMap_cons, List.filter_append]
    rcases List.mem_cons.mp hmem with hb | hb
    · subst hb
      rw [filter_tx_writes_self]
      have hrest : (rest.flatMap tx_writes_of).filter
          (fun r => r.2.block_number = b.number) = [] := by
        rw [List.filter_eq_nil_iff]
        intro r hr
        rcases List.mem_flatMap.mp hr with ⟨b'', hb'', hrw⟩
        have h1 : r.2.block_number = b''.number := tx_writes_block_number hrw
        have h2 : b''.number ≠ b.number := by
          intro he
          exact hnd.1 (he ▸ List.mem_map_of_mem ChainBlock.number hb'')
        simp [h1, h2]
      rw [hrest, List.append_nil]
    · have hne : b'.number ≠ b.number := by
        intro he
        exact hnd.1 (he.symm ▸ List.mem_map_of_mem ChainBlock.number hb)
      rw [filter_tx_writes_ne hne, List.nil_append]
      exact ih b hnd.2 hb

lemma sum_tx_writes (bn ts gp : Nat) :
    ∀ txs : List Tx,
    (∀ t ∈ txs, t.tx_type = 3 → t.blob_versioned_hashes ≠ none →
      t.signer ≠ none) →
    (((txs.filterMap (tx_write_of bn ts gp)).map
      (fun r => r.2.blob_count)).sum) = total_blobs_of txs := by
  intro txs
  induction txs with
  | nil => intro _; rfl
  | cons t rest ih =>
    intro hrec
    have hrest := fun t' ht' => hrec t' (List.mem_cons_of_mem t ht')
    have hhead := hrec t (List.mem_cons_self t rest)
    rw [List.filterMap_cons]
    have htot : total_blobs_of (t :: rest) = blobs_of_tx t + total_blobs_of rest := by
      simp [total_blobs_of]
    by_cases h3 : t.tx_type = 3
    · rcases hbv : t.blob_versioned_hashes with - | hs
      · have hw : tx_write_of bn ts gp t = none := by
          unfold tx_write_of
          rw [if_pos h3, hbv]
        rw [hw, ih hrest, htot]
        simp [blobs_of_tx, h3, hbv]
      · rcases hsg : t.signer with - | s
        · exact absurd hsg (hhead h3 (by rw [hbv]; simp))
        · have hw : tx_write_of bn ts gp t =
              some (t.tx_hash, ⟨bn, s, hs.length, gp, ts⟩) := by
            unfold tx_write_of
            rw [if_pos h3, hbv, hsg]
          rw [hw, List.map_cons, List.sum_cons, ih hrest, htot]
          simp [blobs_of_tx, h3, hbv]
    · have hw : tx_write_of bn ts gp t = none := by
        unfold tx_write_of
        rw [if_neg h3]
      rw [hw, ih hrest, htot]
      simp [blobs_of_tx, h3]

/-- C2 (amended): after ingesting a segment into an empty store, the
`blocks` row of each block carries `total_blobs` equal to the sum of
`blob_count` over the `blob_transactions` rows with its number —
provided every blob-carrying transaction of the segment has a
recoverable signer (an unrecoverable signer inflates the block total
without a matching row — see the counterexample) and the segment's block
numbers and transaction hashes are distinct. -/
theorem c2_aggregate_consistency (seg : List ChainBlock) (b : ChainBlock)
    (hb : (seg.map ChainBlock.number).Nodup)
    (ht : ((seg.flatMap tx_writes_of).map Prod.fst).Nodup)
    (hrec : ∀ b' ∈ seg, ∀ t ∈ b'.txs, t.tx_type = 3 →
      t.blob_versioned_hashes ≠ none → t.signer ≠ none)
    (hmem : b ∈ seg) :
    (lookup_block (process_chain DB.empty seg) b.number).map
        BlockRow.total_blobs =
      some (sum_blob_counts
        (process_chain DB.empty seg).blob_transactions b.number) := by
  rw [process_chain_eq]
  unfold lookup_block
  simp only
  rw [show (DB.empty).blocks = [] from rfl,
    show (DB.empty).blob_transactions = [] from rfl]
  rw [apply_upserts_nil_eq _ (by rw [block_writes_keys]; exact hb)]
  rw [apply_upserts_nil_eq _ ht]
  rw [alist_lookup_block_writes seg b hb hmem]
  unfold sum_blob_counts
  rw [filter_flatMap_tx_writes seg b hb hmem]
  unfold tx_writes_of
  rw [sum_tx_writes _ _ _ _ (hrec b hmem)]
  rfl

/-- Witness for C2 at a concrete one-block segment whose single blob
transaction has a recoverable signer. -/
theorem c2_aggregate_consistency_witness :
    (lookup_block (process_chain DB.empty
        [⟨100, 1700000000, some 5, some 0,
          [⟨3, some ["h1", "h2", "h3"], some "0xabc", "t1"⟩]⟩]) 100).map
        BlockRow.total_blobs =
      some (sum_blob_counts
        (process_chain DB.empty
          [⟨100, 1700000000, some 5, some 0,
            [⟨3, some ["h1", "h2", "h3"], some "0xabc", "t1"⟩]⟩]).blob_transactions
        100) :=
  c2_aggregate_consistency
    [⟨100, 1700000000, some 5, some 0,
      [⟨3, some ["h1", "h2", "h3"], some "0xabc", "t1"⟩]⟩]
    ⟨100, 1700000000, some 5, some 0,
      [⟨3, some ["h1", "h2", "h3"], some "0xabc", "t1"⟩]⟩
    (by decide) (by decide) (by decide) (by decide)

/-- Counterexample for C2 as stated: a successfully ingested block whose
only blob transaction (2 blobs) has an unrecoverable signer stores
`total_blobs = 2` in its `blocks` row while no `blob_transactions` row
references block 100, so the sum is 0 and the claimed equality fails. -/
theorem c2_counterexample :
    ¬ ((lookup_block (process_chain DB.empty
        [⟨100, 1700000000, some 1, some 0,
          [⟨3, some ["b1", "b2"], none, "t1"⟩]⟩]) 100).map
        BlockRow.total_blobs =
      some (sum_blob_counts (process_chain DB.empty
        [⟨100, 1700000000, some 1, some 0,
          [⟨3, some ["b1", "b2"], none, "t1"⟩]⟩]).blob_transactions 100)) ∧
    (lookup_block (process_chain DB.empty
      [⟨100, 1700000000, some 1, some 0,
        [⟨3, some ["b1", "b2"], none, "t1"⟩]⟩]) 100).map
        BlockRow.total_blobs = some 2 ∧
    sum_blob_counts (process_chain DB.empty
      [⟨100, 1700000000, some 1, some 0,
        [⟨3, some ["b1", "b2"], none, "t1"⟩]⟩]).blob_transactions 100 = 0 := by
  decide

/-! ## C5 — correlation threshold and zero-variance guard -/

/-- C5: in the chain-profile computation a label group with at most 10
transactions reports `price_sensitivity = 0`; with 11 or more it reports
the Pearson correlation of its (gas price, blob count) pairs, and that
correlation is 0 whenever the variance-product radicand of its
denominator is zero. -/
theorem c5_price_sensitivity :
    (∀ txs : List ProfileTx, txs.length ≤ 10 → price_sensitivity txs = 0) ∧
    (∀ txs : List ProfileTx, 10 < txs.length →
      price_sensitivity txs =
        calculate_correlation (txs.map (fun t => (t.2.2 : ℚ)))
          (txs.map (fun t => (t.1 : ℚ)))) ∧
    (∀ x y : List ℚ, corr_denominator_sq x y = 0 →
      calculate_correlation x y = 0) := by
  refine ⟨?_, ?_, ?_⟩
  · intro txs h
    unfold price_sensitivity
    rw [if_neg (by omega)]
  · intro txs h
    unfold price_sensitivity
    rw [if_pos h]
  · intro x y h
    unfold calculate_correlation
    by_cases h1 : x.length ≠ y.length ∨ x.isEmpty
    · rw [if_pos h1]
    · rw [if_neg h1]
      simp [h]

/-- Witness for C5: a 2-transaction group reports 0, and a concrete
correlation with a zero-variance second series evaluates to 0. -/
theorem c5_price_sensitivity_witness :
    price_sensitivity [(1, 0, 5), (2, 0, 6)] = 0 ∧
    calculate_correlation [1, 2] [3, 3] = 0 :=
  ⟨c5_price_sensitivity.1 [(1, 0, 5), (2, 0, 6)] (by decide),
   c5_price_sensitivity.2.2 [1, 2] [3, 3] (by norm_num [corr_denominator_sq])⟩

/-! ## C8 — acknowledgment only after full application -/

/-- The tip number of a nonempty segment is the number of one of its
blocks. -/
lemma chain_tip_number_mem :
    ∀ c : List ChainBlock, c ≠ [] →
    ∃ x ∈ c, chain_tip_number c = x.number := by
  intro c
  induction c with
  | nil => intro h; exact absurd rfl h
  | cons a t ih =>
    intro _
    cases t with
    | nil => exact ⟨a, List.mem_cons_self a [], rfl⟩
    | cons a' t' =>
      rcases ih (by simp) with ⟨x, hx, he⟩
      refine ⟨x, List.mem_cons_of_mem a hx, ?_⟩
      rw [← he]
      simp [chain_tip_number, List.getLast?_cons_cons]

/-- Every block number of an ascending segment is bounded by the tip
number acknowledged for it. -/
lemma chain_tip_number_is_max :
    ∀ new : List ChainBlock,
    List.Pairwise (fun a b => a.number < b.number) new →
    ∀ b ∈ new, b.number ≤ chain_tip_number new := by
  intro new
  induction new with
  | nil => intro _ b hb; exact absurd hb (List.not_mem_nil b)
  | cons a t ih =>
    intro hp b hb
    rcases List.pairwise_cons.mp hp with ⟨hlt, hp'⟩
    rcases List.mem_cons.mp hb with hba | hbt
    · subst hba
      cases t with
      | nil => simp [chain_tip_number]
      | cons a' t' =>
        have htip : chain_tip_number (b :: a' :: t') = chain_tip_number (a' :: t') := by
          simp [chain_tip_number, List.getLast?_cons_cons]
        rw [htip]
        rcases chain_tip_number_mem (a' :: t') (by simp) with ⟨x, hx, he⟩
        rw [he]
        exact le_of_lt (hlt x hx)
    · cases t with
      | nil => exact absurd hbt (List.not_mem_nil b)
      | cons a' t' =>
        have htip : chain_tip_number (a :: a' :: t') = chain_tip_number (a' :: t') := by
          simp [chain_tip_number, List.getLast?_cons_cons]
        rw [htip]
        exact ih hp' b hbt

/-- C8: the loop body of `blob_exex` emits the
`FinishedHeight(committed_chain.tip())` acknowledgment exactly when the
whole notification has been applied: an error from either segment
processor propagates (via `?`) before the send, so an erroring
notification yields `Except.error` and nothing is emitted, while a
successful `Committed`/`Reorged` notification yields the fully updated
store paired with the tip acknowledgment — the highest block of an
ascending new segment. -/
theorem c8_ack_semantics {ε : Type}
    (pc rc : DB → List ChainBlock → Except ε DB) (db : DB) :
    (∀ (new : List ChainBlock) (e : ε), pc db new = .error e →
      handle_notification pc rc db (.chainCommitted new) = .error e) ∧
    (∀ (old new : List ChainBlock) (e : ε), rc db old = .error e →
      handle_notification pc rc db (.chainReorged old new) = .error e) ∧
    (∀ (old new : List ChainBlock) (d₁ : DB) (e : ε),
      rc db old = .ok d₁ → pc d₁ new = .error e →
      handle_notification pc rc db (.chainReorged old new) = .error e) ∧
    (∀ (new : List ChainBlock) (d' : DB), pc db new = .ok d' →
      handle_notification pc rc db (.chainCommitted new) =
        .ok (d', some (chain_tip_number new))) ∧
    (∀ (old new : List ChainBlock) (d₁ d₂ : DB),
      rc db old = .ok d₁ → pc d₁ new = .ok d₂ →
      handle_notification pc rc db (.chainReorged old new) =
        .ok (d₂, some (chain_tip_number new))) ∧
    (∀ (old : List ChainBlock) (d' : DB), rc db old = .ok d' →
      handle_notification pc rc db (.chainReverted old) = .ok (d', none)) ∧
    (∀ new : List ChainBlock,
      List.Pairwise (fun a b => a.number < b.number) new →
      ∀ b ∈ new, b.number ≤ chain_tip_number new) := by
  refine ⟨?_, ?_, ?_, ?_, ?_, ?_, chain_tip_number_is_max⟩
  · intro new e h
    simp [handle_notification, h]
  · intro old new e h
    have hred : handle_notification pc rc db (.chainReorged old new) =
        Except.bind (rc db old) (fun d => Except.bind (pc d new)
          (fun db' => Except.ok (db', some (chain_tip_number new)))) := rfl
    rw [hred, h]
    rfl
  · intro old new d₁ e h1 h2
    have hred : handle_notification pc rc db (.chainReorged old new) =
        Except.bind (rc db old) (fun d => Except.bind (pc d new)
          (fun db' => Except.ok (db', some (chain_tip_number new)))) := rfl
    rw [hred, h1]
    show Except.bind (pc d₁ new) _ = _
    rw [h2]
    rfl
  · intro new d' h
    simp [handle_notification, h, committed_chain]
  · intro old new d₁ d₂ h1 h2
    have hred : handle_notification pc rc db (.chainReorged old new) =
        Except.bind (rc db old) (fun d => Except.bind (pc d new)
          (fun db' => Except.ok (db', some (chain_tip_number new)))) := rfl
    rw [hred, h1]
    show Except.bind (pc d₁ new) _ = _
    rw [h2]
    rfl
  · intro old d' h
    simp [handle_notification, h, committed_chain]

/-- Witness for C8: with the real segment processors lifted into
`Except`, a concrete committed notification acknowledges tip 100 after
full application, and a failing processor yields an error with no
acknowledgment. -/
theorem c8_ack_semantics_witness :
    handle_notification (fun d c => (Except.ok (process_chain d c) : Except Unit DB))
      (fun d c => Except.ok (revert_chain d c)) DB.empty
      (.chainCommitted [⟨100, 1700000000, some 1, some 0, []⟩]) =
      .ok (process_chain DB.empty [⟨100, 1700000000, some 1, some 0, []⟩],
        some (chain_tip_number [⟨100, 1700000000, some 1, some 0, []⟩])) ∧
    chain_tip_number [⟨100, 1700000000, some 1, some 0, []⟩] = 100 ∧
    handle_notification (fun _ _ => (Except.error () : Except Unit DB))
      (fun d c => Except.ok (revert_chain d c)) DB.empty
      (.chainCommitted [⟨100, 1700000000, some 1, some 0, []⟩]) =
      .error () :=
  ⟨(c8_ack_semantics (fun d c => (Except.ok (process_chain d c) : Except Unit DB))
      (fun d c => Except.ok (revert_chain d c)) DB.empty).2.2.2.1
    [⟨100, 1700000000, some 1, some 0, []⟩] _ rfl,
   rfl,
   (c8_ack_semantics (fun _ _ => (Except.error () : Except Unit DB))
      (fun d c => Except.ok (revert_chain d c)) DB.empty).1
    [⟨100, 1700000000, some 1, some 0, []⟩] () rfl⟩

/-! ## C9 — heatmap completeness -/

lemma grid_length {α : Type} (f : Nat → Nat → α) :
    ∀ m n : Nat,
    ((List.range m).flatMap (fun i => (List.range n).map (f i))).length =
      m * n := by
  intro m n
  induction m with
  | zero => simp
  | succ k ih =>
    rw [List.range_succ, List.flatMap_append]
    simp only [List.length_append, ih]
    simp [Nat.succ_mul]

lemma grid_getElem {α : Type} (f : Nat → Nat → α) :
    ∀ (m n i j : Nat), i < m → j < n →
    ((List.range m).flatMap (fun d => (List.range n).map (f d)))[i * n + j]? =
      some (f i j) := by
  intro m n i j hi hj
  induction m with
  | zero => omega
  | succ k ih =>
    rw [List.range_succ, List.flatMap_append]
    by_cases hik : i < k
    · rw [List.getElem?_append_left (by rw [grid_length]; calc
        i * n + j < i * n + n := by omega
        _ ≤ k * n := by
          have : i + 1 ≤ k := hik
          calc i * n + n = (i + 1) * n := by ring
            _ ≤ k * n := Nat.mul_le_mul_right n this)]
      exact ih hik
    · have hik' : i = k := by omega
      subst hik'
      rw [List.getElem?_append_right (by rw [grid_length]; omega)]
      rw [grid_length]
      simp only [List.flatMap_cons, List.flatMap_nil, List.append_nil]
      have hidx : i * n + j - i * n = j := by omega
      rw [hidx, List.getElem?_map, List.getElem?_range hj]
      rfl

/-- C9: for every requested day count the congestion heatmap has exactly
168 cells; the cell at position `day * 24 + hour` carries that day/hour
pair, and when no block of the time range falls in the bucket it is the
zero-filled cell (zero utilization, saturation, gas price, block
count). -/
theorem c9_heatmap_completeness (blocks : List HeatmapRow) (now : Int)
    (days : Nat) :
    (get_congestion_heatmap blocks now days).length = 168 ∧
    (∀ day hour : Nat, day < 7 → hour < 24 →
      (get_congestion_heatmap blocks now days)[day * 24 + hour]? =
        some (heatmap_cell day hour (heatmap_rows blocks now days)) ∧
      ((∀ r ∈ heatmap_rows blocks now days,
          ¬(day_of_week r.1 = (day : Int) ∧ hour_of_day r.1 = (hour : Int))) →
        heatmap_cell day hour (heatmap_rows blocks now days) =
          ⟨day, hour, 0, 0, 0, 0⟩)) := by
  constructor
  · rw [show (168 : Nat) = 7 * 24 from rfl]
    exact grid_length _ 7 24
  · intro day hour hd hh
    constructor
    · exact grid_getElem _ 7 24 day hour hd hh
    · intro hempty
      unfold heatmap_cell
      have hfil : (heatmap_rows blocks now days).filter
          (fun r => day_of_week r.1 = (day : Int) ∧
            hour_of_day r.1 = (hour : Int)) = [] := by
        rw [List.filter_eq_nil_iff]
        intro r hr
        simpa using hempty r hr
      rw [hfil]
      rfl

/-- Witness for C9 on the empty store over a 7-day window: 168 cells and
a concrete empty bucket (day 3, hour 5) rendered as the zero cell. -/
theorem c9_heatmap_completeness_witness :
    (get_congestion_heatmap [] 0 7).length = 168 ∧
    (get_congestion_heatmap [] 0 7)[3 * 24 + 5]? =
      some (heatmap_cell 3 5 (heatmap_rows [] 0 7)) ∧
    heatmap_cell 3 5 (heatmap_rows [] 0 7) = ⟨3, 5, 0, 0, 0, 0⟩ :=
  ⟨(c9_heatmap_completeness [] 0 7).1,
   ((c9_heatmap_completeness [] 0 7).2 3 5 (by decide) (by decide)).1,
   ((c9_heatmap_completeness [] 0 7).2 3 5 (by decide) (by decide)).2
     (by intro r hr; simp [heatmap_rows] at hr)⟩

/-! ## C3 — chart gap-filling -/

/-- The `last_gas_price` value reached by the fill loop after scanning a
prefix of the window: the gas price of the last stored block seen, or
the initial (pre-scan) value when none was. -/
def last_price_upto (db : DB) (init : Nat) (ks : List Nat) : Nat :=
  ks.foldl (fun acc k =>
    match lookup_block db k with
    | some r => r.gas_price
    | none => acc) init

lemma last_price_upto_all_none (db : DB) (init : Nat) :
    ∀ ks : List Nat, (∀ x ∈ ks, lookup_block db x = none) →
    last_price_upto db init ks = init := by
  intro ks
  induction ks generalizing init with
  | nil => intro _; rfl
  | cons k₀ t ih =>
    intro hall
    have h0 := hall k₀ (List.mem_cons_self k₀ t)
    have : last_price_upto db init (k₀ :: t) = last_price_upto db init t := by
      unfold last_price_upto
      rw [List.foldl_cons, h0]
    rw [this]
    exact ih init (fun x hx => hall x (List.mem_cons_of_mem k₀ hx))

lemma fill_chart_gap (db : DB) :
    ∀ (ks : List Nat) (last i k : Nat),
    ks[i]? = some k → lookup_block db k = none →
    (fill_chart db last ks).2.1[i]? = some 0 ∧
    (fill_chart db last ks).2.2[i]? =
      some ((last_price_upto db last (ks.take i) : ℚ) / 10 ^ 9) := by
  intro ks
  induction ks with
  | nil => intro last i k h _; simp at h
  | cons k₀ ks' ih =>
    intro last i k hget hlk
    cases hl : lookup_block db k₀ with
    | some r =>
      cases i with
      | zero =>
        simp only [List.getElem?_cons_zero, Option.some.injEq] at hget
        subst hget
        rw [hl] at hlk
        cases hlk
      | succ i' =>
        simp only [List.getElem?_cons_succ] at hget
        have hrec := ih r.gas_price i' k hget hlk
        have htake : last_price_upto db last ((k₀ :: ks').take (i' + 1)) =
            last_price_upto db r.gas_price (ks'.take i') := by
          rw [List.take_succ_cons]
          unfold last_price_upto
          rw [List.foldl_cons, hl]
        constructor
        · simp only [fill_chart, hl, List.getElem?_cons_succ]
          exact hrec.1
        · simp only [fill_chart, hl, List.getElem?_cons_succ]
          rw [htake]
          exact hrec.2
    | none =>
      cases i with
      | zero =>
        simp only [List.take_zero]
        constructor
        · simp [fill_chart, hl]
        · simp [fill_chart, hl, last_price_upto]
      | succ i' =>
        simp only [List.getElem?_cons_succ] at hget
        have hrec := ih last i' k hget hlk
        have htake : last_price_upto db last ((k₀ :: ks').take (i' + 1)) =
            last_price_upto db last (ks'.take i') := by
          rw [List.take_succ_cons]
          unfold last_price_upto
          rw [List.foldl_cons, hl]
        constructor
        · simp only [fill_chart, hl, List.getElem?_cons_succ]
          exact hrec.1
        · simp only [fill_chart, hl, List.getElem?_cons_succ]
          rw [htake]
          exact hrec.2

lemma chart_range_concat {start latest : Nat} (h : start ≤ latest) :
    chart_range start latest =
      List.range' start (latest - start) ++ [latest] := by
  unfold chart_range
  have hn : latest + 1 - start = (latest - start) + 1 := by omega
  rw [hn, List.range'_concat]
  have : start + 1 * (latest - start) = latest := by omega
  rw [this]

lemma prescan_of_latest_stored {db : DB} {start latest : Nat} {r : BlockRow}
    (hsl : start ≤ latest) (hr : lookup_block db latest = some r) :
    prescan_last_gas_price db (chart_range start latest) = r.gas_price := by
  unfold prescan_last_gas_price
  rw [chart_range_concat hsl]
  unfold chart_rows
  rw [List.filterMap_append]
  have hone : List.filterMap
      (fun k => (lookup_block db k).map (fun row => (k, row))) [latest] =
      [(latest, r)] := by
    simp [hr]
  rw [hone, List.foldl_append]
  rfl

lemma foldl_max_self_or_mem :
    ∀ (xs : List Nat) (a : Nat), xs.foldl max a = a ∨ xs.foldl max a ∈ xs := by
  intro xs
  induction xs with
  | nil => intro a; exact Or.inl rfl
  | cons x t ih =>
    intro a
    rw [List.foldl_cons]
    rcases ih (max a x) with h | h
    · rw [h]
      rcases max_choice a x with h' | h'
      · exact Or.inl h'
      · refine Or.inr ?_
        rw [h']
        exact List.mem_cons_self x t
    · exact Or.inr (List.mem_cons_of_mem x h)

lemma max_block_number_mem {l : List (Nat × BlockRow)}
    (h : max_block_number l ≠ 0) : max_block_number l ∈ l.map Prod.fst := by
  have he : max_block_number l = (l.map Prod.fst).foldl max 0 := by
    unfold max_block_number
    rw [List.foldl_map]
  rcases foldl_max_self_or_mem (l.map Prod.fst) 0 with h' | h'
  · exact absurd (he.trans h') h
  · exact he ▸ h'

lemma alist_lookup_isSome_of_mem {K V : Type} [DecidableEq K] {k : K} :
    ∀ l : List (K × V), k ∈ l.map Prod.fst →
    (alist_lookup k l).isSome = true := by
  intro l
  induction l with
  | nil => intro h; simp at h
  | cons p t ih =>
    intro h
    by_cases hk : k = p.1
    · simp [alist_lookup, hk]
    · rcases List.mem_cons.mp h with h' | h'
      · exact absurd h' hk
      · simp only [alist_lookup, if_neg hk]
        exact ih h'

/-- C3 (amended): in the windowed chart series every block number with
no stored row yields blob count 0 and the gas price carried by the fill
loop — the price of the last stored block scanned before it in the
window, with *initial* value the pre-scan residue, which is the gas
price of the highest-numbered stored block (the latest block) rather
than 0.  In particular gap blocks before the first stored row of the
window report the latest block's gas price, not 0. -/
theorem c3_chart_gap_amended (db : DB) (num_blocks i k : Nat)
    (hlat : max_block_number db.blocks ≠ 0)
    (hget : (chart_window db num_blocks)[i]? = some k)
    (hmiss : lookup_block db k = none) :
    (get_chart_data db num_blocks).blobs[i]? = some 0 ∧
    (get_chart_data db num_blocks).gas_prices[i]? =
      some ((last_price_upto db
        (prescan_last_gas_price db (chart_window db num_blocks))
        ((chart_window db num_blocks).take i) : ℚ) / 10 ^ 9) ∧
    (lookup_block db (max_block_number db.blocks)).isSome = true ∧
    (∀ r : BlockRow, lookup_block db (max_block_number db.blocks) = some r →
      prescan_last_gas_price db (chart_window db num_blocks) = r.gas_price) ∧
    ((∀ j k', j < i → (chart_window db num_blocks)[j]? = some k' →
        lookup_block db k' = none) →
      (get_chart_data db num_blocks).gas_prices[i]? =
        some ((prescan_last_gas_price db (chart_window db num_blocks) : ℚ) /
          10 ^ 9)) := by
  have hproj : get_chart_data db num_blocks =
      ⟨(fill_chart db (prescan_last_gas_price db (chart_window db num_blocks))
          (chart_window db num_blocks)).1,
       (fill_chart db (prescan_last_gas_price db (chart_window db num_blocks))
          (chart_window db num_blocks)).2.1,
       (fill_chart db (prescan_last_gas_price db (chart_window db num_blocks))
          (chart_window db num_blocks)).2.2⟩ := by
    unfold get_chart_data
    rw [if_neg hlat]
  have hfill := fill_chart_gap db (chart_window db num_blocks)
    (prescan_last_gas_price db (chart_window db num_blocks)) i k hget hmiss
  refine ⟨?_, ?_, ?_, ?_, ?_⟩
  · rw [hproj]
    exact hfill.1
  · rw [hproj]
    exact hfill.2
  · exact alist_lookup_isSome_of_mem db.blocks (max_block_number_mem hlat)
  · intro r hr
    unfold chart_window
    exact prescan_of_latest_stored (Nat.sub_le _ _) hr
  · intro hall
    rw [hproj]
    have hnone : ∀ x ∈ (chart_window db num_blocks).take i,
        lookup_block db x = none := by
      intro x hx
      rcases List.mem_iff_getElem?.mp hx with ⟨j, hj⟩
      rw [List.getElem?_take] at hj
      by_cases hji : j < i
      · rw [if_pos hji] at hj
        exact hall j x hji hj
      · rw [if_neg hji] at hj
        cases hj
    have heq := last_price_upto_all_none db
      (prescan_last_gas_price db (chart_window db num_blocks))
      ((chart_window db num_blocks).take i) hnone
    exact hfill.2.trans (by rw [heq])

/-- Counterexample for C3 as stated: with stored blocks 3 (1 blob, gas
price 7) and 5 (2 blobs, gas price 9) and a 5-block window, blocks 1 and
2 precede the first stored row of the window, yet their reported gas
price is the latest block's 9 / 1e9 — carried in by the pre-scan — and
not the claimed 0. -/
theorem c3_counterexample :
    (get_chart_data ⟨[(3, ⟨0, 0, 1, 0, 7, 0⟩), (5, ⟨0, 0, 2, 0, 9, 0⟩)],
      [], [], []⟩ 5).labels = [1, 2, 3, 4, 5] ∧
    (get_chart_data ⟨[(3, ⟨0, 0, 1, 0, 7, 0⟩), (5, ⟨0, 0, 2, 0, 9, 0⟩)],
      [], [], []⟩ 5).blobs = [0, 0, 1, 0, 2] ∧
    (get_chart_data ⟨[(3, ⟨0, 0, 1, 0, 7, 0⟩), (5, ⟨0, 0, 2, 0, 9, 0⟩)],
      [], [], []⟩ 5).gas_prices[0]? = some ((9 : ℚ) / 10 ^ 9) ∧
    ((9 : ℚ) / 10 ^ 9) ≠ 0 := by
  refine ⟨by decide, by decide, rfl, by norm_num⟩

/-- Witness for C3 (amended) at the same concrete store: block 4 is a
gap after stored block 3, so it reports blob count 0 and carries block
3's gas price. -/
theorem c3_chart_gap_amended_witness :
    (get_chart_data ⟨[(3, ⟨0, 0, 1, 0, 7, 0⟩), (5, ⟨0, 0, 2, 0, 9, 0⟩)],
      [], [], []⟩ 5).blobs[3]? = some 0 ∧
    (get_chart_data ⟨[(3, ⟨0, 0, 1, 0, 7, 0⟩), (5, ⟨0, 0, 2, 0, 9, 0⟩)],
      [], [], []⟩ 5).gas_prices[3]? =
      some ((last_price_upto ⟨[(3, ⟨0, 0, 1, 0, 7, 0⟩), (5, ⟨0, 0, 2, 0, 9, 0⟩)],
          [], [], []⟩
        (prescan_last_gas_price
          ⟨[(3, ⟨0, 0, 1, 0, 7, 0⟩), (5, ⟨0, 0, 2, 0, 9, 0⟩)], [], [], []⟩
          (chart_window ⟨[(3, ⟨0, 0, 1, 0, 7, 0⟩), (5, ⟨0, 0, 2, 0, 9, 0⟩)],
            [], [], []⟩ 5))
        ((chart_window ⟨[(3, ⟨0, 0, 1, 0, 7, 0⟩), (5, ⟨0, 0, 2, 0, 9, 0⟩)],
          [], [], []⟩ 5).take 3) : ℚ) / 10 ^ 9) := by
  have h := c3_chart_gap_amended
    ⟨[(3, ⟨0, 0, 1, 0, 7, 0⟩), (5, ⟨0, 0, 2, 0, 9, 0⟩)], [], [], []⟩ 5 3 4
    (by decide) (by decide) (by decide)
  exact ⟨h.1, h.2.1⟩

end BlobExEx
